import Mathlib

/-!
Shallow embedding of the SeaBite Express stock ledger backend
(Backend/routes/finance.js and the PostgreSQL inventory router kept in
Backend/migrate.js) and of the offline queue / reconciliation engine of
Frontend/script.js.  SQL NUMERIC quantities are modelled as integers,
SERIAL primary keys as explicit next-id counters, and a committed
transaction as a returned new state while a rolled-back one is an error
value (the handlers wrap every multi-statement effect in BEGIN/COMMIT
with ROLLBACK on any thrown error).  The HTTP boundary normalization of
string fields (cleanStr, String.prototype.trim, toUpperCase) is treated
as part of request parsing: the operations below receive the normalized
strings, and the emptiness and membership checks on them are kept.
-/

namespace SeaBite

/-- Direction of a stock movement: the type column of stock_movements,
constrained by CHECK (type IN ('IN','OUT')). -/
inductive MovType where
  | IN
  | OUT
deriving DecidableEq, Repr, Inhabited

/-- Row of the products table (migrate.js lines 7-17); created_at and
updated_at timestamps are omitted, NUMERIC is modelled as Int. -/
structure Product where
  id : Nat
  name : String
  sku : String
  unit : String
  qty : Int
  reorder_level : Int
deriving DecidableEq, Repr, Inhabited

/-- Row of the stock_movements table (migrate.js lines 20-29). -/
structure StockMovement where
  id : Nat
  product_id : Nat
  type : MovType
  qty : Int
  note : String
deriving DecidableEq, Repr, Inhabited

/-- Row of the sales table (migrate.js lines 32-39). -/
structure Sale where
  id : Nat
  amount : Int
  description : String
deriving DecidableEq, Repr, Inhabited

/-- Row of the sale_items table (migrate.js lines 42-49).
sale_id references sales(id) ON DELETE CASCADE; product_id references
products(id) with no ON DELETE action. -/
structure SaleItem where
  id : Nat
  sale_id : Nat
  product_id : Nat
  qty_used : Int
deriving DecidableEq, Repr, Inhabited

/-- The server database: one list per table, in insertion order, plus the
SERIAL counters. -/
structure DB where
  products : List Product
  movements : List StockMovement
  sales : List Sale
  saleItems : List SaleItem
  nextProductId : Nat
  nextMovementId : Nat
  nextSaleId : Nat
  nextSaleItemId : Nat
deriving DecidableEq, Repr, Inhabited

/-- Fresh database: empty tables, SERIAL counters starting at 1. -/
def DB.empty : DB :=
  { products := [], movements := [], sales := [], saleItems := []
    nextProductId := 1, nextMovementId := 1, nextSaleId := 1, nextSaleItemId := 1 }

/-- SELECT ... FROM products WHERE id = pid (first matching row). -/
def findProduct (db : DB) (pid : Nat) : Option Product :=
  db.products.find? (fun p => p.id == pid)

/-- okAmount of finance.js: Number.isFinite(n) && n > 0. -/
def okAmount (n : Int) : Bool := n > 0

/-- okQty of finance.js: Number.isFinite(n) && n > 0. -/
def okQty (n : Int) : Bool := n > 0

/-- POST /products of the PostgreSQL inventory router (migrate.js lines
122-163): validates the name and initial_qty, inserts the product with
qty = initial_qty and, only when initial_qty > 0, a single synthetic IN
movement, all inside one BEGIN/COMMIT. -/
def createProduct (db : DB) (name sku unit : String)
    (reorder_level initial_qty : Int) : Except String DB :=
  if name = "" then .error "Product name is required"
  else if initial_qty < 0 then .error "initial_qty must be 0 or more"
  else if initial_qty > 0 then
    .ok { db with
      products := db.products ++
        [⟨db.nextProductId, name, sku, (if unit = "" then "pcs" else unit),
          initial_qty, reorder_level⟩]
      nextProductId := db.nextProductId + 1
      movements := db.movements ++
        [⟨db.nextMovementId, db.nextProductId, .IN, initial_qty,
          "Initial Stock IN on product creation"⟩]
      nextMovementId := db.nextMovementId + 1 }
  else
    .ok { db with
      products := db.products ++
        [⟨db.nextProductId, name, sku, (if unit = "" then "pcs" else unit),
          initial_qty, reorder_level⟩]
      nextProductId := db.nextProductId + 1 }

/-- POST /products/:id/move of the PostgreSQL inventory router
(migrate.js lines 206-254): validates type and qty, locks the product
row, rejects an OUT that would make qty negative, otherwise inserts one
movement and sets the new qty, in one BEGIN/COMMIT. -/
def stockMove (db : DB) (id : Nat) (type : String) (qty : Int)
    (note : String) : Except String DB :=
  if ¬ (type = "IN" ∨ type = "OUT") then .error "type must be IN or OUT"
  else if qty ≤ 0 then .error "qty must be greater than 0"
  else match findProduct db id with
    | none => .error "Product not found"
    | some p =>
      if (if type = "IN" then p.qty + qty else p.qty - qty) < 0 then
        .error "Insufficient stock"
      else .ok { db with
        movements := db.movements ++
          [⟨db.nextMovementId, id, if type = "IN" then .IN else .OUT, qty,
            note⟩]
        products := db.products.map
          (fun q => if q.id = id then
            { q with qty := (if type = "IN" then p.qty + qty else p.qty - qty) }
          else q)
        nextMovementId := db.nextMovementId + 1 }

/-- The per-item validation loop of POST /sales that runs before the
transaction (finance.js lines 111-116). Product ids are Nats here, so
only the pid = 0 case of the pid <= 0 check is representable. -/
def validItems : List (Nat × Int) → Option String
  | [] => none
  | (pid, qty) :: rest =>
    if pid = 0 then some "Invalid product_id in items"
    else if ¬ okQty qty then some "qty_used must be > 0 in items"
    else validItems rest

/-- The validate-and-lock loop of POST /sales (finance.js lines 123-139):
each item is checked against the stored product quantity; no quantity is
modified while checking. -/
def checkStock (db : DB) : List (Nat × Int) → Except String Unit
  | [] => .ok ()
  | (pid, qty) :: rest =>
    match findProduct db pid with
    | none => .error ("Product not found (ID " ++ toString pid ++ ")")
    | some p =>
      if p.qty - qty < 0 then .error ("Insufficient stock for " ++ p.name)
      else checkStock db rest

/-- One iteration of the insert loop of POST /sales (finance.js lines
153-176): insert the sale item, insert the OUT movement, decrement the
product quantity in place (UPDATE products SET qty = qty - $1). -/
def applyItem (sid : Nat) (db : DB) (it : Nat × Int) : DB :=
  { db with
    saleItems := db.saleItems ++ [⟨db.nextSaleItemId, sid, it.1, it.2⟩]
    movements := db.movements ++
      [⟨db.nextMovementId, it.1, .OUT, it.2,
        "Auto OUT for Sale #" ++ toString sid⟩]
    products := db.products.map
      (fun p => if p.id = it.1 then { p with qty := p.qty - it.2 } else p)
    nextSaleItemId := db.nextSaleItemId + 1
    nextMovementId := db.nextMovementId + 1 }

/-- The whole insert loop of POST /sales, in item order. -/
def applyItems (sid : Nat) (db : DB) : List (Nat × Int) → DB
  | [] => db
  | it :: rest => applyItems sid (applyItem sid db it) rest

/-- POST /sales (finance.js lines 102-201): validate amount, description
and items, lock and check every referenced product, then insert the sale
row and run the per-item insert loop; any thrown error rolls the whole
transaction back. -/
def createSale (db : DB) (amount : Int) (description : String)
    (items : List (Nat × Int)) : Except String DB :=
  if ¬ (okAmount amount) ∨ description = "" then
    .error "Valid amount (>0) and description required"
  else match validItems items with
    | some e => .error e
    | none =>
      match checkStock db items with
      | .error e => .error e
      | .ok _ =>
        let sid := db.nextSaleId
        let db1 := { db with
          sales := db.sales ++ [⟨sid, amount, description⟩]
          nextSaleId := sid + 1 }
        .ok (applyItems sid db1 items)

/-- SELECT product_id, qty_used FROM sale_items WHERE sale_id = sid. -/
def saleItemsOf (db : DB) (sid : Nat) : List SaleItem :=
  db.saleItems.filter (fun si => si.sale_id == sid)

/-- One iteration of the revert loop of DELETE /sales/:id (finance.js
lines 271-288): insert a compensating IN movement and increment the
product quantity.  Inserting a movement for a missing product violates
the stock_movements.product_id foreign key, which aborts (rolls back)
the transaction; that is the error case here. -/
def revertItem (db : DB) (si : SaleItem) : Except String DB :=
  match findProduct db si.product_id with
  | none => .error "stock_movements.product_id foreign key violation"
  | some _ => .ok { db with
      movements := db.movements ++
        [⟨db.nextMovementId, si.product_id, .IN, si.qty_used,
          "Revert IN for deleted Sale #" ++ toString si.sale_id⟩]
      products := db.products.map
        (fun p => if p.id = si.product_id then
          { p with qty := p.qty + si.qty_used } else p)
      nextMovementId := db.nextMovementId + 1 }

/-- The whole revert loop of DELETE /sales/:id, in item order. -/
def revertItems (db : DB) : List SaleItem → Except String DB
  | [] => .ok db
  | si :: rest =>
    match revertItem db si with
    | .error e => .error e
    | .ok db1 => revertItems db1 rest

/-- DELETE /sales/:id (finance.js lines 253-300): check the sale exists,
revert stock for each of its items, then delete the sale; deleting the
sale cascades to its sale_items rows. -/
def deleteSale (db : DB) (sid : Nat) : Except String DB :=
  match db.sales.find? (fun s => s.id == sid) with
  | none => .error "Sale not found"
  | some _ =>
    match revertItems db (saleItemsOf db sid) with
    | .error e => .error e
    | .ok db1 => .ok { db1 with
        sales := db1.sales.filter (fun s => ¬ s.id = sid)
        saleItems := db1.saleItems.filter (fun si => ¬ si.sale_id = sid) }

/-- DELETE /products/:id of the PostgreSQL inventory router (migrate.js
lines 191-203): a plain DELETE FROM products WHERE id = $1.  Under the
schema, sale_items.product_id references products(id) with no ON DELETE
action, so the statement fails whenever a sale_items row references the
product; stock_movements rows cascade when it succeeds. -/
def deleteProduct (db : DB) (pid : Nat) : Except String DB :=
  match findProduct db pid with
  | none => .error "Product not found"
  | some _ =>
    if db.saleItems.any (fun si => si.product_id == pid) then
      .error "sale_items.product_id foreign key violation"
    else .ok { db with
      products := db.products.filter (fun p => ¬ p.id = pid)
      movements := db.movements.filter (fun m => ¬ m.product_id = pid) }

/-- The stock-affecting server operations named by the specification:
product creation, direct stock move, sale creation, sale deletion. -/
inductive Op where
  | createProduct (name sku unit : String) (reorder_level initial_qty : Int)
  | move (pid : Nat) (type : String) (qty : Int) (note : String)
  | createSale (amount : Int) (description : String) (items : List (Nat × Int))
  | deleteSale (sid : Nat)
deriving DecidableEq, Repr

/-- Dispatch one operation to its handler. -/
def applyOp (db : DB) : Op → Except String DB
  | .createProduct name sku unit rl iq => createProduct db name sku unit rl iq
  | .move pid type qty note => stockMove db pid type qty note
  | .createSale amount description items => createSale db amount description items
  | .deleteSale sid => deleteSale db sid

/-- Observable server state after one request: a rejected request rolls
its transaction back and leaves the database unchanged. -/
def step (db : DB) (op : Op) : DB :=
  match applyOp db op with
  | .ok db1 => db1
  | .error _ => db

/-- Run a sequence of requests. -/
def run (db : DB) : List Op → DB
  | [] => db
  | op :: rest => run (step db op) rest

/-! ## Client side: offline queue and reconciliation (Frontend/script.js)

URL paths are represented by their slash-separated segment lists.  A
queued action stores what queueAdd persists: kind, path, method and the
serialized body (the ts timestamp is omitted); qid is the IndexedDB
autoIncrement key. -/

/-- One entry of the IndexedDB queue store (script.js queueAdd). -/
structure QueuedAction where
  qid : Nat
  kind : String
  path : List String
  method : String
  body : String
deriving DecidableEq, Repr, Inhabited

/-- The durable queue: entries in qid (insertion) order, as returned by
idbGetAll over the autoIncrement key, plus the next key. -/
structure ClientQueue where
  items : List QueuedAction
  nextQid : Nat
deriving DecidableEq, Repr, Inhabited

/-- queueAdd (script.js lines 147-155): append with the auto-assigned
sequence key. -/
def queueAdd (q : ClientQueue) (kind : String) (path : List String)
    (method : String) (body : String) : ClientQueue :=
  { items := q.items ++ [⟨q.nextQid, kind, path, method, body⟩]
    nextQid := q.nextQid + 1 }

/-- queueClearItem (script.js line 158): delete one entry by its key. -/
def queueClearItem (q : ClientQueue) (qid : Nat) : ClientQueue :=
  { q with items := q.items.filter (fun a => ¬ a.qid = qid) }

/-- What one fetch of a request can observe: the promise rejects
(connectivity-class failure) or a response with some HTTP status
arrives. -/
inductive NetOutcome where
  | netFail
  | reply (status : Nat) (errMsg : String)
deriving DecidableEq, Repr, Inhabited

/-- api (script.js lines 163-188): a throwing fetch becomes a thrown
network error; a response with res.ok false (status outside 200-299)
becomes a thrown error carrying the server message; otherwise the data
is returned. -/
def api : NetOutcome → Except String Unit
  | .netFail => .error "Network error: Backend unreachable"
  | .reply status errMsg =>
    if 200 ≤ status ∧ status < 300 then .ok ()
    else .error errMsg

/-- Result object of apiOrQueue (script.js lines 190-200). -/
structure CallResult where
  ok : Bool
  queued : Bool
  error : Option String
deriving DecidableEq, Repr, Inhabited

/-- apiOrQueue (script.js lines 190-200): when the device is known
offline an error is thrown before calling api; ANY caught error, whether
the offline throw, a network failure or a server rejection, leads to
queueAdd. -/
def apiOrQueue (online : Bool) (outcome : NetOutcome) (q : ClientQueue)
    (kind : String) (path : List String) (method : String) (body : String) :
    CallResult × ClientQueue :=
  if ¬ online then
    (⟨false, true, some "offline"⟩, queueAdd q kind path method body)
  else
    match api outcome with
    | .ok _ => (⟨true, false, none⟩, q)
    | .error e => (⟨false, true, some e⟩, queueAdd q kind path method body)

/-- The follow-up gate every write handler in script.js ends with:
if (navigator.onLine && !result.ok) an alert is shown and loadAll()
reloads all state from the server. -/
def surfaceAndReload (online : Bool) (resultOk : Bool) : Bool :=
  online && !resultOk

/-- The drain loop body of flushQueue (script.js lines 950-957): walk the
snapshot of the queue in order; on api success clear that entry by qid
and continue; on the first failure stop.  The first component records
the actions whose replay was attempted, in order. -/
def flushLoop (net : QueuedAction → NetOutcome) (q : ClientQueue) :
    List QueuedAction → List QueuedAction × ClientQueue
  | [] => ([], q)
  | a :: rest =>
    match api (net a) with
    | .ok _ =>
      let r := flushLoop net (queueClearItem q a.qid) rest
      (a :: r.1, r.2)
    | .error _ => ([a], q)

/-- flushQueue (script.js lines 944-961): no-op while offline, otherwise
replay the queued actions sequentially against the backend, where net
gives the network outcome each replayed request observes. -/
def flushQueue (online : Bool) (net : QueuedAction → NetOutcome)
    (q : ClientQueue) : List QueuedAction × ClientQueue :=
  if ¬ online then ([], q)
  else flushLoop net q q.items

/-! ## Server routing surface (Backend/server.js and the routers) -/

/-- One segment of an Express route pattern: a literal or a :param. -/
inductive Seg where
  | lit (s : String)
  | par
deriving DecidableEq, Repr

/-- A mounted route: HTTP method and path pattern. -/
structure Route where
  method : String
  segs : List Seg
deriving DecidableEq, Repr

/-- The inventory router routes (identical path surface in the
PostgreSQL router of migrate.js and in Backend/routes/inventory.js),
as mounted under /api/inventory by server.js. -/
def inventoryRoutes : List Route :=
  [ ⟨"GET",    [.lit "api", .lit "inventory", .lit "products"]⟩
  , ⟨"POST",   [.lit "api", .lit "inventory", .lit "products"]⟩
  , ⟨"PUT",    [.lit "api", .lit "inventory", .lit "products", .par]⟩
  , ⟨"DELETE", [.lit "api", .lit "inventory", .lit "products", .par]⟩
  , ⟨"POST",   [.lit "api", .lit "inventory", .lit "products", .par, .lit "move"]⟩
  , ⟨"GET",    [.lit "api", .lit "inventory", .lit "export", .lit "inventory.csv"]⟩
  , ⟨"POST",   [.lit "api", .lit "inventory", .lit "email", .lit "inventory"]⟩ ]

/-- The finance router routes (finance.js), as mounted under
/api/finance by server.js. -/
def financeRoutes : List Route :=
  [ ⟨"GET",    [.lit "api", .lit "finance", .lit "sales"]⟩
  , ⟨"POST",   [.lit "api", .lit "finance", .lit "sales"]⟩
  , ⟨"PUT",    [.lit "api", .lit "finance", .lit "sales", .par]⟩
  , ⟨"DELETE", [.lit "api", .lit "finance", .lit "sales", .par]⟩
  , ⟨"GET",    [.lit "api", .lit "finance", .lit "expenses"]⟩
  , ⟨"POST",   [.lit "api", .lit "finance", .lit "expenses"]⟩
  , ⟨"PUT",    [.lit "api", .lit "finance", .lit "expenses", .par]⟩
  , ⟨"DELETE", [.lit "api", .lit "finance", .lit "expenses", .par]⟩
  , ⟨"GET",    [.lit "api", .lit "finance", .lit "report"]⟩
  , ⟨"GET",    [.lit "api", .lit "finance", .lit "export", .lit "finance.csv"]⟩
  , ⟨"POST",   [.lit "api", .lit "finance", .lit "email", .lit "finance"]⟩ ]

/-- Every route the Express app dispatches to (server.js lines 50-58). -/
def serverRoutes : List Route :=
  ⟨"GET", [.lit "health"]⟩ :: inventoryRoutes ++ financeRoutes

/-- Match a pattern against a concrete segment list. -/
def segMatch : List Seg → List String → Bool
  | [], [] => true
  | .lit s :: ss, t :: ts => s = t && segMatch ss ts
  | .par :: ss, _ :: ts => segMatch ss ts
  | _, _ => false

/-- Does any mounted route handle this method and path? -/
def serverHandles (method : String) (path : List String) : Bool :=
  serverRoutes.any (fun r => r.method = method && segMatch r.segs path)

/-- Express behaviour for a request no mounted route matches: the
default 404 response, a non-2xx reply; a matched request observes the
outcome its handler produces. -/
def dispatch (method : String) (path : List String) (handled : NetOutcome) :
    NetOutcome :=
  if serverHandles method path then handled
  else .reply 404 "Cannot match route"

/-- The request path recordLoss targets (script.js line 832):
/api/inventory/products/:id/loss. -/
def lossPath (pid : Nat) : List String :=
  ["api", "inventory", "products", toString pid, "loss"]

/-! ## Client durable caches (IndexedDB object stores) -/

/-- IndexedDB put on a keyPath store: overwrite the record with the same
key, otherwise append (script.js idbPut). -/
def idbPut (store : List (String × α)) (k : String) (v : α) :
    List (String × α) :=
  if store.any (fun kv => kv.1 = k) then
    store.map (fun kv => if kv.1 = k then (k, v) else kv)
  else store ++ [(k, v)]

/-- idbPutMany (script.js lines 115-124): put every record in order. -/
def idbPutMany (store : List (String × α)) (vs : List (String × α)) :
    List (String × α) :=
  vs.foldl (fun s kv => idbPut s kv.1 kv.2) store

/-- Keys currently present in a cache store. -/
def keysOf (store : List (String × α)) : List String :=
  store.map Prod.fst

/-- The cache write path of loadAll (script.js lines 250-252): the
server records are upserted into the store with idbPutMany; nothing is
cleared or deleted first. -/
def refreshCache (store : List (String × α)) (serverRecs : List (String × α)) :
    List (String × α) :=
  idbPutMany store serverRecs

/-! ## Derived ledger quantities and invariants -/

/-- Did the api call succeed (fetch resolved with a 2xx status)? -/
def apiOk (o : NetOutcome) : Bool :=
  match api o with
  | .ok _ => true
  | .error _ => false

/-- Sum of qty over the IN movements of one product. -/
def sumIN (pid : Nat) (ms : List StockMovement) : Int :=
  ((ms.filter (fun m => m.product_id == pid && m.type == MovType.IN)).map
    StockMovement.qty).sum

/-- Sum of qty over the OUT movements of one product. -/
def sumOUT (pid : Nat) (ms : List StockMovement) : Int :=
  ((ms.filter (fun m => m.product_id == pid && m.type == MovType.OUT)).map
    StockMovement.qty).sum

/-- The conservation invariant: every product's current qty equals the
sum of its IN movements minus the sum of its OUT movements. -/
def conservation (db : DB) : Prop :=
  ∀ p ∈ db.products, p.qty = sumIN p.id db.movements - sumOUT p.id db.movements

/-- Structural well-formedness that the SERIAL keys guarantee: product
ids are pairwise distinct and below the products counter, movement and
sale-item references and sale ids are below their counters. -/
def WF (db : DB) : Prop :=
  db.products.Pairwise (fun p q => p.id ≠ q.id) ∧
  (∀ p ∈ db.products, p.id < db.nextProductId) ∧
  (∀ m ∈ db.movements, m.product_id < db.nextProductId) ∧
  (∀ s ∈ db.sales, s.id < db.nextSaleId) ∧
  (∀ si ∈ db.saleItems, si.sale_id < db.nextSaleId)

/-- Total quantity the items list consumes from one product (duplicate
product ids contribute each of their occurrences). -/
def itemsSum (pid : Nat) (items : List (Nat × Int)) : Int :=
  ((items.filter (fun it => it.1 == pid)).map Prod.snd).sum

/-- The sale_items rows the insert loop of POST /sales appends. -/
def mkSaleItems (sid n : Nat) : List (Nat × Int) → List SaleItem
  | [] => []
  | (pid, q) :: rest => ⟨n, sid, pid, q⟩ :: mkSaleItems sid (n + 1) rest

/-- The OUT movements the insert loop of POST /sales appends. -/
def outMovements (sid n : Nat) : List (Nat × Int) → List StockMovement
  | [] => []
  | (pid, q) :: rest =>
    ⟨n, pid, .OUT, q, "Auto OUT for Sale #" ++ toString sid⟩ ::
      outMovements sid (n + 1) rest

/-- The IN movements the revert loop of DELETE /sales/:id appends for a
list of sale items. -/
def inMovementsOf (n : Nat) : List SaleItem → List StockMovement
  | [] => []
  | si :: rest =>
    ⟨n, si.product_id, .IN, si.qty_used,
      "Revert IN for deleted Sale #" ++ toString si.sale_id⟩ ::
      inMovementsOf (n + 1) rest

/-- Total qty_used a list of sale items holds for one product. -/
def sumUsed (pid : Nat) (l : List SaleItem) : Int :=
  ((l.filter (fun si => si.product_id == pid)).map SaleItem.qty_used).sum

/-! ## Concrete fixtures used by the claim theorems and witnesses -/

/-- Request sequence of the C1 failing input: create a product with 50
units of stock, then sell 30 + 30 units of it in one sale whose items
list names the product twice. -/
def c1Ops : List Op :=
  [.createProduct "Fish" "" "pcs" 0 50,
   .createSale 5000 "Lunch combo" [(1, 30), (1, 30)]]

/-- Database after the product-creation step of the C1 input. -/
def c1Db : DB := run DB.empty [.createProduct "Fish" "" "pcs" 0 50]

/-- Scenario ops of spec section 8 used by the C2 witness: stock 50 in,
move 30 out, sell 5 through a sale, delete the sale. -/
def c2Ops : List Op :=
  [.createProduct "Ice" "" "pcs" 0 0,
   .move 1 "IN" 50 "",
   .move 1 "OUT" 30 "",
   .createSale 5000 "Lunch combo" [(1, 10)],
   .deleteSale 1]

/-- Database with one product (id 1, qty 20) backed by its ledger, used
by the C4 witness. -/
def c4Db : DB :=
  ⟨[⟨1, "Ice", "", "pcs", 20, 0⟩], [⟨1, 1, .IN, 20, ""⟩], [], [], 2, 2, 1, 1⟩

/-- Database after the C4 witness sale is created. -/
def c4Db1 : DB :=
  (createSale c4Db 5000 "Lunch combo" [(1, 10)]).toOption.getD c4Db

/-- Empty client queue used by the C5 counterexample. -/
def c5Q : ClientQueue := ⟨[], 1⟩

/-- Queued expense creation, first entry of the C6 witness queue. -/
def c6A1 : QueuedAction := ⟨1, "expense_create", ["api", "finance", "expenses"], "POST", "amount=1"⟩

/-- Queued expense creation, second entry of the C6 witness queue. -/
def c6A2 : QueuedAction := ⟨2, "expense_create", ["api", "finance", "expenses"], "POST", "amount=2"⟩

/-- Queued expense creation, third entry of the C6 witness queue. -/
def c6A3 : QueuedAction := ⟨3, "expense_create", ["api", "finance", "expenses"], "POST", "amount=3"⟩

/-- The C6 witness queue: three actions in insertion order. -/
def c6Q : ClientQueue := ⟨[c6A1, c6A2, c6A3], 4⟩

/-- Network behaviour for the C6 witness: the replay of the second
queued action times out, every other request succeeds. -/
def c6Net (x : QueuedAction) : NetOutcome :=
  if x.qid = 2 then .netFail else .reply 200 ""

/-- The stuck loss action of the C8 witness. -/
def c8Loss : QueuedAction := ⟨1, "stock_loss", lossPath 3, "POST", "qty=2"⟩

/-- A later queued action sitting behind the stuck one in C8. -/
def c8Other : QueuedAction := ⟨2, "expense_create", ["api", "finance", "expenses"], "POST", "amount=4"⟩

/-- The C8 witness queue: the loss action first, a good action after. -/
def c8Q2 : ClientQueue := ⟨[c8Loss, c8Other], 3⟩

/-- Handler outcomes for C8: every request that reaches a handler
succeeds; routing decides everything else. -/
def c8Hf (_ : QueuedAction) : NetOutcome := .reply 200 ""

/-- Network behaviour for the C8 witness: every request is routed by the
Express route table. -/
def c8Net (x : QueuedAction) : NetOutcome :=
  dispatch x.method x.path (c8Hf x)

/-- Database with a product referenced by a sale item, for C9. -/
def c9Db : DB :=
  ⟨[⟨1, "Fish", "", "pcs", 8, 0⟩], [⟨1, 1, .IN, 10, ""⟩, ⟨2, 1, .OUT, 2, ""⟩],
   [⟨1, 500, "Lunch"⟩], [⟨1, 1, 1, 2⟩], 2, 3, 2, 2⟩

/-- Cache store holding one record created offline under a temporary
id, for the C10 witness. -/
def c10Store : List (String × Int) := [("tmp-1730000000000", 7)]

/-- Server records arriving at the post-drain refresh in C10. -/
def c10Recs : List (String × Int) := [("42", 9)]

/-- Empty client queue used by the C8 witness. -/
def c8Q : ClientQueue := ⟨[], 1⟩

instance (db : DB) : Decidable (conservation db) := by
  unfold conservation; infer_instance

instance (db : DB) : Decidable (WF db) := by
  unfold WF; infer_instance

/-! ## Helper lemmas -/

theorem sumIN_append (pid : Nat) (ms ms2 : List StockMovement) :
    sumIN pid (ms ++ ms2) = sumIN pid ms + sumIN pid ms2 := by
  unfold sumIN
  rw [List.filter_append, List.map_append, List.sum_append]

theorem sumOUT_append (pid : Nat) (ms ms2 : List StockMovement) :
    sumOUT pid (ms ++ ms2) = sumOUT pid ms + sumOUT pid ms2 := by
  unfold sumOUT
  rw [List.filter_append, List.map_append, List.sum_append]

theorem sumIN_cons (pid : Nat) (m : StockMovement) (ms : List StockMovement) :
    sumIN pid (m :: ms) =
      (if m.product_id = pid ∧ m.type = MovType.IN then m.qty else 0) +
        sumIN pid ms := by
  unfold sumIN
  rw [List.filter_cons]
  by_cases h1 : m.product_id = pid <;> by_cases h2 : m.type = MovType.IN <;>
    simp [h1, h2]

theorem sumOUT_cons (pid : Nat) (m : StockMovement) (ms : List StockMovement) :
    sumOUT pid (m :: ms) =
      (if m.product_id = pid ∧ m.type = MovType.OUT then m.qty else 0) +
        sumOUT pid ms := by
  unfold sumOUT
  rw [List.filter_cons]
  by_cases h1 : m.product_id = pid <;> by_cases h2 : m.type = MovType.OUT <;>
    simp [h1, h2]

theorem sumIN_zero_of_ne (pid : Nat) (ms : List StockMovement)
    (h : ∀ m ∈ ms, m.product_id ≠ pid) : sumIN pid ms = 0 := by
  induction ms with
  | nil => rfl
  | cons m rest ih =>
    rw [sumIN_cons]
    have hm : m.product_id ≠ pid := h m (List.mem_cons_self m rest)
    simp [hm]
    exact ih (fun x hx => h x (List.mem_cons_of_mem m hx))

theorem sumOUT_zero_of_ne (pid : Nat) (ms : List StockMovement)
    (h : ∀ m ∈ ms, m.product_id ≠ pid) : sumOUT pid ms = 0 := by
  induction ms with
  | nil => rfl
  | cons m rest ih =>
    rw [sumOUT_cons]
    have hm : m.product_id ≠ pid := h m (List.mem_cons_self m rest)
    simp [hm]
    exact ih (fun x hx => h x (List.mem_cons_of_mem m hx))

theorem itemsSum_cons (pid : Nat) (it : Nat × Int) (its : List (Nat × Int)) :
    itemsSum pid (it :: its) =
      (if it.1 = pid then it.2 else 0) + itemsSum pid its := by
  unfold itemsSum
  rw [List.filter_cons]
  by_cases h : it.1 = pid <;> simp [h]

theorem sumUsed_cons (pid : Nat) (si : SaleItem) (l : List SaleItem) :
    sumUsed pid (si :: l) =
      (if si.product_id = pid then si.qty_used else 0) + sumUsed pid l := by
  unfold sumUsed
  rw [List.filter_cons]
  by_cases h : si.product_id = pid <;> simp [h]

theorem outMovements_sumOUT (sid : Nat) :
    ∀ (its : List (Nat × Int)) (n pid : Nat),
    sumOUT pid (outMovements sid n its) = itemsSum pid its := by
  intro its
  induction its with
  | nil => intro n pid; rfl
  | cons it rest ih =>
    intro n pid
    obtain ⟨pid2, q⟩ := it
    rw [outMovements, sumOUT_cons, itemsSum_cons, ih (n + 1) pid]
    simp

theorem outMovements_sumIN (sid : Nat) :
    ∀ (its : List (Nat × Int)) (n pid : Nat),
    sumIN pid (outMovements sid n its) = 0 := by
  intro its
  induction its with
  | nil => intro n pid; rfl
  | cons it rest ih =>
    intro n pid
    obtain ⟨pid2, q⟩ := it
    rw [outMovements, sumIN_cons, ih (n + 1) pid]
    simp

theorem inMovementsOf_sumIN :
    ∀ (l : List SaleItem) (n pid : Nat),
    sumIN pid (inMovementsOf n l) = sumUsed pid l := by
  intro l
  induction l with
  | nil => intro n pid; rfl
  | cons si rest ih =>
    intro n pid
    rw [inMovementsOf, sumIN_cons, sumUsed_cons, ih (n + 1) pid]
    simp

theorem inMovementsOf_sumOUT :
    ∀ (l : List SaleItem) (n pid : Nat),
    sumOUT pid (inMovementsOf n l) = 0 := by
  intro l
  induction l with
  | nil => intro n pid; rfl
  | cons si rest ih =>
    intro n pid
    rw [inMovementsOf, sumOUT_cons, ih (n + 1) pid]
    simp

theorem outMovements_mem (sid : Nat) :
    ∀ (its : List (Nat × Int)) (n : Nat) (m : StockMovement),
    m ∈ outMovements sid n its →
    m.type = MovType.OUT ∧ ∃ it ∈ its, m.product_id = it.1 := by
  intro its
  induction its with
  | nil => intro n m hm; cases hm
  | cons it rest ih =>
    intro n m hm
    obtain ⟨pid2, q⟩ := it
    rw [outMovements] at hm
    cases hm with
    | head => exact ⟨rfl, (pid2, q), List.mem_cons_self _ _, rfl⟩
    | tail _ hm2 =>
      obtain ⟨hty, it2, hit2, hpid⟩ := ih (n + 1) m hm2
      exact ⟨hty, it2, List.mem_cons_of_mem _ hit2, hpid⟩

theorem mkSaleItems_mem (sid : Nat) :
    ∀ (its : List (Nat × Int)) (n : Nat) (si : SaleItem),
    si ∈ mkSaleItems sid n its → si.sale_id = sid := by
  intro its
  induction its with
  | nil => intro n si hsi; cases hsi
  | cons it rest ih =>
    intro n si hsi
    obtain ⟨pid2, q⟩ := it
    rw [mkSaleItems] at hsi
    cases hsi with
    | head => rfl
    | tail _ hsi2 => exact ih (n + 1) si hsi2

theorem inMovementsOf_mem :
    ∀ (l : List SaleItem) (n : Nat) (m : StockMovement),
    m ∈ inMovementsOf n l →
    m.type = MovType.IN ∧ ∃ si ∈ l, m.product_id = si.product_id := by
  intro l
  induction l with
  | nil => intro n m hm; cases hm
  | cons si rest ih =>
    intro n m hm
    rw [inMovementsOf] at hm
    cases hm with
    | head => exact ⟨rfl, si, List.mem_cons_self _ _, rfl⟩
    | tail _ hm2 =>
      obtain ⟨hty, si2, hsi2, hpid⟩ := ih (n + 1) m hm2
      exact ⟨hty, si2, List.mem_cons_of_mem _ hsi2, hpid⟩

theorem outMovements_length (sid : Nat) :
    ∀ (its : List (Nat × Int)) (n : Nat),
    (outMovements sid n its).length = its.length := by
  intro its
  induction its with
  | nil => intro n; rfl
  | cons it rest ih =>
    intro n
    obtain ⟨pid2, q⟩ := it
    rw [outMovements, List.length_cons, List.length_cons, ih (n + 1)]

theorem mkSaleItems_length (sid : Nat) :
    ∀ (its : List (Nat × Int)) (n : Nat),
    (mkSaleItems sid n its).length = its.length := by
  intro its
  induction its with
  | nil => intro n; rfl
  | cons it rest ih =>
    intro n
    obtain ⟨pid2, q⟩ := it
    rw [mkSaleItems, List.length_cons, List.length_cons, ih (n + 1)]

theorem inMovementsOf_length :
    ∀ (l : List SaleItem) (n : Nat),
    (inMovementsOf n l).length = l.length := by
  intro l
  induction l with
  | nil => intro n; rfl
  | cons si rest ih =>
    intro n
    rw [inMovementsOf, List.length_cons, List.length_cons, ih (n + 1)]

theorem outMovements_pairs (sid : Nat) :
    ∀ (its : List (Nat × Int)) (n : Nat),
    (outMovements sid n its).map (fun m => (m.product_id, m.qty)) = its := by
  intro its
  induction its with
  | nil => intro n; rfl
  | cons it rest ih =>
    intro n
    obtain ⟨pid2, q⟩ := it
    rw [outMovements, List.map_cons, ih (n + 1)]

theorem inMovementsOf_mk_pairs (sid : Nat) :
    ∀ (its : List (Nat × Int)) (n k : Nat),
    (inMovementsOf n (mkSaleItems sid k its)).map
      (fun m => (m.product_id, m.qty)) = its := by
  intro its
  induction its with
  | nil => intro n k; rfl
  | cons it rest ih =>
    intro n k
    obtain ⟨pid2, q⟩ := it
    rw [mkSaleItems, inMovementsOf, List.map_cons, ih (n + 1) (k + 1)]

theorem sumUsed_mkSaleItems (sid : Nat) :
    ∀ (its : List (Nat × Int)) (n pid : Nat),
    sumUsed pid (mkSaleItems sid n its) = itemsSum pid its := by
  intro its
  induction its with
  | nil => intro n pid; rfl
  | cons it rest ih =>
    intro n pid
    obtain ⟨pid2, q⟩ := it
    rw [mkSaleItems, sumUsed_cons, itemsSum_cons, ih (n + 1) pid]

theorem find?_pid_map (g : Product → Product) (hg : ∀ p, (g p).id = p.id)
    (ps : List Product) (pid : Nat) :
    (ps.map g).find? (fun p => p.id == pid) =
      (ps.find? (fun p => p.id == pid)).map g := by
  induction ps with
  | nil => rfl
  | cons p rest ih =>
    rw [List.map_cons]
    cases h : (p.id == pid) with
    | true =>
      have h1 : List.find? (fun x => x.id == pid) (g p :: List.map g rest) =
          some (g p) := List.find?_cons_of_pos _ (by rw [hg p]; exact h)
      have h2 : List.find? (fun x => x.id == pid) (p :: rest) = some p :=
        List.find?_cons_of_pos _ h
      rw [h1, h2]
      rfl
    | false =>
      have h1 : List.find? (fun x => x.id == pid) (g p :: List.map g rest) =
          List.find? (fun x => x.id == pid) (List.map g rest) :=
        List.find?_cons_of_neg _ (by rw [hg p]; simp [h])
      have h2 : List.find? (fun x => x.id == pid) (p :: rest) =
          List.find? (fun x => x.id == pid) rest :=
        List.find?_cons_of_neg _ (by simp [h])
      rw [h1, h2, ih]

theorem find?_append_of_prefix_none {α : Type} (p : α → Bool) :
    ∀ (l1 l2 : List α), (∀ x ∈ l1, p x = false) →
    (l1 ++ l2).find? p = l2.find? p := by
  intro l1
  induction l1 with
  | nil => intro l2 _; rfl
  | cons a rest ih =>
    intro l2 h
    rw [List.cons_append,
      List.find?_cons_of_neg _ (by simp [h a (List.mem_cons_self a rest)])]
    exact ih l2 (fun x hx => h x (List.mem_cons_of_mem a hx))

theorem applyItems_eq (sid : Nat) :
    ∀ (its : List (Nat × Int)) (db : DB),
    applyItems sid db its = DB.mk
      (db.products.map (fun p => { p with qty := p.qty - itemsSum p.id its }))
      (db.movements ++ outMovements sid db.nextMovementId its)
      db.sales
      (db.saleItems ++ mkSaleItems sid db.nextSaleItemId its)
      db.nextProductId (db.nextMovementId + its.length)
      db.nextSaleId (db.nextSaleItemId + its.length) := by
  intro its
  induction its with
  | nil =>
    intro db
    show db = _
    have hmap : db.products.map
        (fun p => { p with qty := p.qty - itemsSum p.id ([] : List (Nat × Int)) }) =
        db.products :=
      List.map_id'' (fun p => by simp [itemsSum]) db.products
    rw [hmap]
    simp [outMovements, mkSaleItems]
  | cons it rest ih =>
    intro db
    obtain ⟨pid, q⟩ := it
    show applyItems sid (applyItem sid db (pid, q)) rest = _
    rw [ih]
    simp only [applyItem, DB.mk.injEq]
    refine ⟨?_, ?_, trivial, ?_, trivial, ?_, trivial, ?_⟩
    · rw [List.map_map]
      refine List.map_congr_left ?_
      intro p _
      by_cases hp : p.id = pid
      · simp [Function.comp, hp, itemsSum_cons, sub_sub]
      · simp [Function.comp, hp, itemsSum_cons, Ne.symm hp]
    · rw [outMovements, List.append_assoc, List.singleton_append]
    · rw [mkSaleItems, List.append_assoc, List.singleton_append]
    · simp only [List.length_cons]
      omega
    · simp only [List.length_cons]
      omega

theorem createSale_ok_shape (db : DB) (amount : Int) (description : String)
    (items : List (Nat × Int)) (db1 : DB)
    (h : createSale db amount description items = .ok db1) :
    okAmount amount = true ∧ ¬ description = "" ∧ validItems items = none ∧
    checkStock db items = .ok () ∧
    db1 = DB.mk
      (db.products.map (fun p => { p with qty := p.qty - itemsSum p.id items }))
      (db.movements ++ outMovements db.nextSaleId db.nextMovementId items)
      (db.sales ++ [⟨db.nextSaleId, amount, description⟩])
      (db.saleItems ++ mkSaleItems db.nextSaleId db.nextSaleItemId items)
      db.nextProductId (db.nextMovementId + items.length)
      (db.nextSaleId + 1) (db.nextSaleItemId + items.length) := by
  unfold createSale at h
  split at h
  · cases h
  · rename_i hcond
    obtain ⟨h1, h2⟩ := not_or.mp hcond
    split at h
    · cases h
    · rename_i hvalid
      split at h
      · cases h
      · rename_i u hcheck
        injection h with h
        subst h
        refine ⟨not_not.mp h1, h2, hvalid, hcheck, ?_⟩
        rw [applyItems_eq]

theorem find?_pid_map_isSome (g : Product → Product)
    (hg : ∀ p, (g p).id = p.id) (ps : List Product) (pid : Nat) :
    ((ps.map g).find? (fun x => x.id == pid)).isSome =
      (ps.find? (fun x => x.id == pid)).isSome := by
  rw [find?_pid_map g hg ps pid]
  cases ps.find? (fun x => x.id == pid) <;> rfl

theorem checkStock_ok_present :
    ∀ (its : List (Nat × Int)) (db : DB), checkStock db its = .ok () →
    ∀ it ∈ its, (findProduct db it.1).isSome = true := by
  intro its
  induction its with
  | nil => intro db h it hit; cases hit
  | cons hd rest ih =>
    intro db h it hit
    obtain ⟨pid, q⟩ := hd
    rw [checkStock] at h
    split at h
    · cases h
    · rename_i p hfp
      by_cases hq : p.qty - q < 0
      · rw [if_pos hq] at h; cases h
      · rw [if_neg hq] at h
        cases hit with
        | head => simp [hfp]
        | tail _ hit2 => exact ih db h it hit2

theorem checkStock_ok_enough :
    ∀ (its : List (Nat × Int)) (db : DB), checkStock db its = .ok () →
    ∀ it ∈ its, ∀ p, findProduct db it.1 = some p → 0 ≤ p.qty - it.2 := by
  intro its
  induction its with
  | nil => intro db h it hit; cases hit
  | cons hd rest ih =>
    intro db h it hit
    obtain ⟨pid, q⟩ := hd
    rw [checkStock] at h
    split at h
    · cases h
    · rename_i p hfp
      by_cases hq : p.qty - q < 0
      · rw [if_pos hq] at h; cases h
      · rw [if_neg hq] at h
        cases hit with
        | head =>
          intro p2 hp2
          rw [hfp] at hp2
          injection hp2 with hp2
          subst hp2
          omega
        | tail _ hit2 => exact ih db h it hit2

theorem revertItem_ok_shape (db : DB) (si : SaleItem) (db1 : DB)
    (h : revertItem db si = .ok db1) :
    ∃ p ∈ db.products, p.id = si.product_id ∧
    db1 = DB.mk
      (db.products.map (fun x =>
        if x.id = si.product_id then { x with qty := x.qty + si.qty_used } else x))
      (db.movements ++ [⟨db.nextMovementId, si.product_id, .IN, si.qty_used,
        "Revert IN for deleted Sale #" ++ toString si.sale_id⟩])
      db.sales db.saleItems db.nextProductId (db.nextMovementId + 1)
      db.nextSaleId db.nextSaleItemId := by
  unfold revertItem at h
  cases hfp : findProduct db si.product_id with
  | none => rw [hfp] at h; cases h
  | some p =>
    rw [hfp] at h
    injection h with h
    subst h
    have hfp2 : db.products.find? (fun x => x.id == si.product_id) = some p := hfp
    refine ⟨p, List.mem_of_find?_eq_some hfp2, ?_, rfl⟩
    have hbeq := List.find?_some hfp2
    simpa using hbeq

theorem revertItems_ok_components :
    ∀ (l : List SaleItem) (db db2 : DB),
    revertItems db l = .ok db2 →
    db2 = DB.mk
      (db.products.map (fun p => { p with qty := p.qty + sumUsed p.id l }))
      (db.movements ++ inMovementsOf db.nextMovementId l)
      db.sales db.saleItems
      db.nextProductId (db.nextMovementId + l.length)
      db.nextSaleId db.nextSaleItemId ∧
    (∀ si ∈ l, ∃ p ∈ db.products, p.id = si.product_id) := by
  intro l
  induction l with
  | nil =>
    intro db db2 h
    injection h with h
    subst h
    constructor
    · have hmap : db.products.map
          (fun p => { p with qty := p.qty + sumUsed p.id ([] : List SaleItem) }) =
          db.products :=
        List.map_id'' (fun p => by simp [sumUsed]) db.products
      rw [hmap]
      simp [inMovementsOf]
    · intro si hsi; cases hsi
  | cons si rest ih =>
    intro db db2 h
    rw [revertItems] at h
    cases hri : revertItem db si with
    | error e => rw [hri] at h; cases h
    | ok dbm =>
      rw [hri] at h
      obtain ⟨p, hpmem, hpid, hdbm⟩ := revertItem_ok_shape db si dbm hri
      subst hdbm
      obtain ⟨hcomp, hmem⟩ := ih _ db2 h
      constructor
      · rw [hcomp]
        simp only [DB.mk.injEq]
        refine ⟨?_, ?_, trivial, trivial, trivial, ?_, trivial, trivial⟩
        · rw [List.map_map]
          refine List.map_congr_left ?_
          intro x _
          by_cases hx : x.id = si.product_id
          · simp [Function.comp, hx, sumUsed_cons, add_assoc]
          · simp [Function.comp, hx, sumUsed_cons, Ne.symm hx]
        · rw [inMovementsOf, List.append_assoc, List.singleton_append]
        · simp only [List.length_cons]
          omega
      · intro sj hsj
        cases hsj with
        | head => exact ⟨p, hpmem, hpid⟩
        | tail _ hsj2 =>
          obtain ⟨p2, hp2mem, hp2id⟩ := hmem sj hsj2
          obtain ⟨p3, hp3mem, hp3⟩ := List.mem_map.mp hp2mem
          refine ⟨p3, hp3mem, ?_⟩
          rw [← hp2id, ← hp3]
          by_cases hx : p3.id = si.product_id <;> simp [hx]

theorem revertItems_isOk :
    ∀ (l : List SaleItem) (db : DB),
    (∀ si ∈ l, (findProduct db si.product_id).isSome = true) →
    ∃ db2, revertItems db l = .ok db2 := by
  intro l
  induction l with
  | nil => intro db _; exact ⟨db, rfl⟩
  | cons si rest ih =>
    intro db hall
    have hsi := hall si (List.mem_cons_self si rest)
    obtain ⟨p, hfp⟩ := Option.isSome_iff_exists.mp hsi
    rw [revertItems]
    unfold revertItem
    rw [hfp]
    apply ih
    intro sj hsj
    have hj := hall sj (List.mem_cons_of_mem si hsj)
    have hgoal : ((db.products.map (fun x =>
        if x.id = si.product_id then { x with qty := x.qty + si.qty_used } else x)).find?
          (fun x => x.id == sj.product_id)).isSome = true := by
      rw [find?_pid_map_isSome _
        (fun x => by by_cases hx : x.id = si.product_id <;> simp [hx])]
      exact hj
    exact hgoal

theorem findProduct_isSome_lt (db : DB) (pid : Nat)
    (hpb : ∀ p ∈ db.products, p.id < db.nextProductId)
    (h : (findProduct db pid).isSome = true) : pid < db.nextProductId := by
  obtain ⟨p, hp⟩ := Option.isSome_iff_exists.mp h
  have hp2 : db.products.find? (fun x => x.id == pid) = some p := hp
  have hmem := List.mem_of_find?_eq_some hp2
  have hbeq : p.id = pid := by simpa using List.find?_some hp2
  have := hpb p hmem
  omega

theorem createProduct_ok_shape (db : DB) (name sku unit : String)
    (rl iq : Int) (db2 : DB)
    (h : createProduct db name sku unit rl iq = .ok db2) :
    ¬ name = "" ∧ ¬ iq < 0 ∧
    db2 = DB.mk
      (db.products ++
        [⟨db.nextProductId, name, sku, (if unit = "" then "pcs" else unit), iq, rl⟩])
      (db.movements ++
        (if 0 < iq then
          [⟨db.nextMovementId, db.nextProductId, MovType.IN, iq,
            "Initial Stock IN on product creation"⟩]
         else []))
      db.sales db.saleItems (db.nextProductId + 1)
      (db.nextMovementId + (if 0 < iq then 1 else 0))
      db.nextSaleId db.nextSaleItemId := by
  unfold createProduct at h
  split at h
  · cases h
  · rename_i hname
    split at h
    · cases h
    · rename_i hneg
      by_cases hpos : iq > 0
      · rw [if_pos hpos] at h
        injection h with h
        subst h
        refine ⟨hname, hneg, ?_⟩
        simp [hpos]
      · rw [if_neg hpos] at h
        injection h with h
        subst h
        refine ⟨hname, hneg, ?_⟩
        simp [hpos]

theorem stockMove_ok_shape (db : DB) (id : Nat) (type : String) (qty : Int)
    (note : String) (db2 : DB) (h : stockMove db id type qty note = .ok db2) :
    (type = "IN" ∨ type = "OUT") ∧ 0 < qty ∧
    ∃ p, findProduct db id = some p ∧
      0 ≤ (if type = "IN" then p.qty + qty else p.qty - qty) ∧
      db2 = DB.mk
        (db.products.map (fun x =>
          if x.id = id then
            { x with qty := (if type = "IN" then p.qty + qty else p.qty - qty) }
          else x))
        (db.movements ++
          [⟨db.nextMovementId, id, (if type = "IN" then MovType.IN else MovType.OUT),
            qty, note⟩])
        db.sales db.saleItems db.nextProductId (db.nextMovementId + 1)
        db.nextSaleId db.nextSaleItemId := by
  unfold stockMove at h
  split at h
  · cases h
  · rename_i htype
    split at h
    · cases h
    · rename_i hqty
      split at h
      · cases h
      · rename_i p hfp
        by_cases hty : type = "IN"
        · simp only [if_pos hty] at h ⊢
          by_cases hnn : p.qty + qty < 0
          · rw [if_pos hnn] at h; cases h
          · rw [if_neg hnn] at h
            injection h with h
            subst h
            exact ⟨not_not.mp htype, by omega, p, hfp, by omega, rfl⟩
        · simp only [if_neg hty] at h ⊢
          by_cases hnn : p.qty - qty < 0
          · rw [if_pos hnn] at h; cases h
          · rw [if_neg hnn] at h
            injection h with h
            subst h
            exact ⟨not_not.mp htype, by omega, p, hfp, by omega, rfl⟩

theorem deleteSale_ok_shape (db : DB) (sid : Nat) (db2 : DB)
    (h : deleteSale db sid = .ok db2) :
    (∃ s ∈ db.sales, s.id = sid) ∧
    ∃ dbr, revertItems db (saleItemsOf db sid) = .ok dbr ∧
      db2 = DB.mk dbr.products dbr.movements
        (dbr.sales.filter (fun s => ¬ s.id = sid))
        (dbr.saleItems.filter (fun si => ¬ si.sale_id = sid))
        dbr.nextProductId dbr.nextMovementId dbr.nextSaleId dbr.nextSaleItemId := by
  unfold deleteSale at h
  split at h
  · cases h
  · rename_i s hfs
    split at h
    · cases h
    · rename_i dbr hrev
      injection h with h
      subst h
      refine ⟨⟨s, List.mem_of_find?_eq_some hfs, by simpa using List.find?_some hfs⟩,
        dbr, hrev, rfl⟩

theorem sumIN_nil (pid : Nat) : sumIN pid [] = 0 := rfl

theorem sumOUT_nil (pid : Nat) : sumOUT pid [] = 0 := rfl

theorem createProduct_preserves (db : DB) (name sku unit : String)
    (rl iq : Int) (db2 : DB)
    (h : createProduct db name sku unit rl iq = .ok db2)
    (hwf : WF db) (hc : conservation db) : WF db2 ∧ conservation db2 := by
  obtain ⟨hpw, hpb, hmb, hsb, hsib⟩ := hwf
  obtain ⟨hname, hneg, hdb2⟩ := createProduct_ok_shape db name sku unit rl iq db2 h
  subst hdb2
  have hne : ∀ m ∈ db.movements, m.product_id ≠ db.nextProductId :=
    fun m hm => by have := hmb m hm; omega
  constructor
  · refine ⟨?_, ?_, ?_, hsb, hsib⟩
    · rw [List.pairwise_append]
      refine ⟨hpw, List.pairwise_singleton _ _, ?_⟩
      intro p hp p2 hp2
      rw [List.mem_singleton] at hp2
      subst hp2
      have := hpb p hp
      show p.id ≠ db.nextProductId
      omega
    · intro p hp
      rw [List.mem_append, List.mem_singleton] at hp
      show p.id < db.nextProductId + 1
      cases hp with
      | inl hp => have := hpb p hp; omega
      | inr hp => subst hp; show db.nextProductId < db.nextProductId + 1; omega
    · intro m hm
      rw [List.mem_append] at hm
      show m.product_id < db.nextProductId + 1
      cases hm with
      | inl hm => have := hmb m hm; omega
      | inr hm =>
        by_cases hpos : 0 < iq
        · rw [if_pos hpos, List.mem_singleton] at hm
          subst hm
          show db.nextProductId < db.nextProductId + 1
          omega
        · rw [if_neg hpos] at hm; cases hm
  · intro p hp
    rw [List.mem_append, List.mem_singleton] at hp
    show p.qty = sumIN p.id (db.movements ++ _) - sumOUT p.id (db.movements ++ _)
    rw [sumIN_append, sumOUT_append]
    cases hp with
    | inl hp =>
      have hlt := hpb p hp
      have hc1 := hc p hp
      by_cases hpos : 0 < iq
      · rw [if_pos hpos, sumIN_cons, sumOUT_cons, sumIN_nil, sumOUT_nil]
        have hcond : ¬ (db.nextProductId = p.id) := by omega
        simp [hcond]
        omega
      · rw [if_neg hpos, sumIN_nil, sumOUT_nil]
        omega
    | inr hp =>
      subst hp
      have hIN0 : sumIN db.nextProductId db.movements = 0 :=
        sumIN_zero_of_ne _ _ hne
      have hOUT0 : sumOUT db.nextProductId db.movements = 0 :=
        sumOUT_zero_of_ne _ _ hne
      show iq = sumIN db.nextProductId db.movements + sumIN db.nextProductId
          (if 0 < iq then [⟨db.nextMovementId, db.nextProductId, MovType.IN, iq,
            "Initial Stock IN on product creation"⟩] else []) -
        (sumOUT db.nextProductId db.movements + sumOUT db.nextProductId
          (if 0 < iq then [⟨db.nextMovementId, db.nextProductId, MovType.IN, iq,
            "Initial Stock IN on product creation"⟩] else []))
      rw [hIN0, hOUT0]
      by_cases hpos : 0 < iq
      · rw [if_pos hpos, sumIN_cons, sumOUT_cons, sumIN_nil, sumOUT_nil]
        simp
      · rw [if_neg hpos, sumIN_nil, sumOUT_nil]
        omega

theorem stockMove_preserves (db : DB) (id : Nat) (type : String) (qty : Int)
    (note : String) (db2 : DB) (h : stockMove db id type qty note = .ok db2)
    (hwf : WF db) (hc : conservation db) : WF db2 ∧ conservation db2 := by
  obtain ⟨hpw, hpb, hmb, hsb, hsib⟩ := hwf
  obtain ⟨htype, hqty, p, hfp, hnn, hdb2⟩ :=
    stockMove_ok_shape db id type qty note db2 h
  subst hdb2
  have hfp2 : db.products.find? (fun x => x.id == id) = some p := hfp
  have hpmem := List.mem_of_find?_eq_some hfp2
  have hpid : p.id = id := by simpa using List.find?_some hfp2
  have hidlt : id < db.nextProductId := by have := hpb p hpmem; omega
  have hcp : p.qty = sumIN id db.movements - sumOUT id db.movements := by
    have := hc p hpmem
    rw [hpid] at this
    exact this
  constructor
  · refine ⟨?_, ?_, ?_, hsb, hsib⟩
    · rw [List.pairwise_map]
      refine List.Pairwise.imp ?_ hpw
      intro a b hab
      show (if a.id = id then _ else a).id ≠ (if b.id = id then _ else b).id
      by_cases ha : a.id = id <;> by_cases hb : b.id = id <;> simp [ha, hb] <;> omega
    · intro x hx
      obtain ⟨x0, hx0, rfl⟩ := List.mem_map.mp hx
      show (if x0.id = id then _ else x0).id < db.nextProductId
      have := hpb x0 hx0
      by_cases hx0id : x0.id = id <;> simp [hx0id] <;> omega
    · intro m hm
      rw [List.mem_append, List.mem_singleton] at hm
      cases hm with
      | inl hm => exact hmb m hm
      | inr hm => subst hm; exact hidlt
  · intro x hx
    obtain ⟨x0, hx0, rfl⟩ := List.mem_map.mp hx
    have hcx := hc x0 hx0
    by_cases hxid : x0.id = id
    · rw [if_pos hxid]
      show (if type = "IN" then p.qty + qty else p.qty - qty) =
        sumIN x0.id (db.movements ++ _) - sumOUT x0.id (db.movements ++ _)
      rw [hxid, sumIN_append, sumOUT_append, sumIN_cons, sumOUT_cons,
        sumIN_nil, sumOUT_nil]
      rcases htype with hIN | hOUT
      · simp [hIN]
        omega
      · have hne : ¬ type = "IN" := by rw [hOUT]; decide
        simp [hOUT, hne]
        omega
    · rw [if_neg hxid]
      show x0.qty = sumIN x0.id (db.movements ++ _) - sumOUT x0.id (db.movements ++ _)
      rw [sumIN_append, sumOUT_append, sumIN_cons, sumOUT_cons,
        sumIN_nil, sumOUT_nil]
      have hcond : ¬ (id = x0.id) := fun hEq => hxid hEq.symm
      simp [hcond]
      omega

theorem createSale_preserves (db : DB) (amount : Int) (description : String)
    (items : List (Nat × Int)) (db2 : DB)
    (h : createSale db amount description items = .ok db2)
    (hwf : WF db) (hc : conservation db) : WF db2 ∧ conservation db2 := by
  obtain ⟨hpw, hpb, hmb, hsb, hsib⟩ := hwf
  obtain ⟨hok, hdesc, hvalid, hcheck, hdb2⟩ :=
    createSale_ok_shape db amount description items db2 h
  subst hdb2
  have hpresent := checkStock_ok_present items db hcheck
  constructor
  · refine ⟨?_, ?_, ?_, ?_, ?_⟩
    · rw [List.pairwise_map]
      exact List.Pairwise.imp (fun hab => hab) hpw
    · intro x hx
      obtain ⟨x0, hx0, rfl⟩ := List.mem_map.mp hx
      exact hpb x0 hx0
    · intro m hm
      rw [List.mem_append] at hm
      cases hm with
      | inl hm => exact hmb m hm
      | inr hm =>
        obtain ⟨hty, it, hit, hmpid⟩ := outMovements_mem _ items _ m hm
        have := findProduct_isSome_lt db it.1 hpb (hpresent it hit)
        show m.product_id < db.nextProductId
        omega
    · intro s hs
      rw [List.mem_append, List.mem_singleton] at hs
      show s.id < db.nextSaleId + 1
      cases hs with
      | inl hs => have := hsb s hs; omega
      | inr hs => subst hs; show db.nextSaleId < db.nextSaleId + 1; omega
    · intro si hsi
      rw [List.mem_append] at hsi
      show si.sale_id < db.nextSaleId + 1
      cases hsi with
      | inl hsi => have := hsib si hsi; omega
      | inr hsi =>
        have := mkSaleItems_mem _ items _ si hsi
        omega
  · intro x hx
    obtain ⟨x0, hx0, rfl⟩ := List.mem_map.mp hx
    have hcx := hc x0 hx0
    show x0.qty - itemsSum x0.id items =
      sumIN x0.id (db.movements ++ outMovements db.nextSaleId db.nextMovementId items) -
        sumOUT x0.id (db.movements ++ outMovements db.nextSaleId db.nextMovementId items)
    rw [sumIN_append, sumOUT_append, outMovements_sumIN, outMovements_sumOUT]
    omega

theorem deleteSale_preserves (db : DB) (sid : Nat) (db2 : DB)
    (h : deleteSale db sid = .ok db2) (hwf : WF db) (hc : conservation db) :
    WF db2 ∧ conservation db2 := by
  obtain ⟨hpw, hpb, hmb, hsb, hsib⟩ := hwf
  obtain ⟨hsale, dbr, hrev, hdb2⟩ := deleteSale_ok_shape db sid db2 h
  obtain ⟨hdbr, hpresent⟩ := revertItems_ok_components _ db dbr hrev
  subst hdb2
  subst hdbr
  constructor
  · refine ⟨?_, ?_, ?_, ?_, ?_⟩
    · show (db.products.map _).Pairwise _
      rw [List.pairwise_map]
      exact List.Pairwise.imp (fun hab => hab) hpw
    · intro x hx
      obtain ⟨x0, hx0, rfl⟩ := List.mem_map.mp hx
      exact hpb x0 hx0
    · intro m hm
      have hm2 : m ∈ db.movements ++
          inMovementsOf db.nextMovementId (saleItemsOf db sid) := hm
      rw [List.mem_append] at hm2
      cases hm2 with
      | inl hm2 => exact hmb m hm2
      | inr hm2 =>
        obtain ⟨hty, si, hsi, hmpid⟩ := inMovementsOf_mem _ _ m hm2
        obtain ⟨p, hpm, hpi⟩ := hpresent si hsi
        have := hpb p hpm
        show m.product_id < db.nextProductId
        omega
    · intro s hs
      exact hsb s (List.mem_filter.mp hs).1
    · intro si hsi
      exact hsib si (List.mem_filter.mp hsi).1
  · intro x hx
    have hx2 : x ∈ db.products.map
        (fun p => { p with qty := p.qty + sumUsed p.id (saleItemsOf db sid) }) := hx
    obtain ⟨x0, hx0, rfl⟩ := List.mem_map.mp hx2
    have hcx := hc x0 hx0
    show x0.qty + sumUsed x0.id (saleItemsOf db sid) =
      sumIN x0.id (db.movements ++
        inMovementsOf db.nextMovementId (saleItemsOf db sid)) -
      sumOUT x0.id (db.movements ++
        inMovementsOf db.nextMovementId (saleItemsOf db sid))
    rw [sumIN_append, sumOUT_append, inMovementsOf_sumIN, inMovementsOf_sumOUT]
    omega

theorem step_preserves (db : DB) (op : Op) (hwf : WF db) (hc : conservation db) :
    WF (step db op) ∧ conservation (step db op) := by
  unfold step
  cases hap : applyOp db op with
  | error e => exact ⟨hwf, hc⟩
  | ok db2 =>
    cases op with
    | createProduct name sku unit rl iq =>
      exact createProduct_preserves db name sku unit rl iq db2 hap hwf hc
    | move pid type qty note =>
      exact stockMove_preserves db pid type qty note db2 hap hwf hc
    | createSale amount description items =>
      exact createSale_preserves db amount description items db2 hap hwf hc
    | deleteSale sid =>
      exact deleteSale_preserves db sid db2 hap hwf hc

theorem run_preserves (ops : List Op) :
    ∀ db : DB, WF db → conservation db →
    WF (run db ops) ∧ conservation (run db ops) := by
  induction ops with
  | nil => intro db hwf hc; exact ⟨hwf, hc⟩
  | cons op rest ih =>
    intro db hwf hc
    rw [run]
    obtain ⟨hwf2, hc2⟩ := step_preserves db op hwf hc
    exact ih (step db op) hwf2 hc2

theorem mkSaleItems_mem_pid (sid : Nat) :
    ∀ (its : List (Nat × Int)) (n : Nat) (si : SaleItem),
    si ∈ mkSaleItems sid n its → ∃ it ∈ its, si.product_id = it.1 := by
  intro its
  induction its with
  | nil => intro n si hsi; cases hsi
  | cons it rest ih =>
    intro n si hsi
    obtain ⟨pid2, q⟩ := it
    rw [mkSaleItems] at hsi
    cases hsi with
    | head => exact ⟨(pid2, q), List.mem_cons_self _ _, rfl⟩
    | tail _ hsi2 =>
      obtain ⟨it2, hit2, hpid⟩ := ih (n + 1) si hsi2
      exact ⟨it2, List.mem_cons_of_mem _ hit2, hpid⟩

theorem deleteSale_ok_of (db : DB) (sid : Nat) (s : Sale)
    (hfs : db.sales.find? (fun x => x.id == sid) = some s)
    (dbr : DB) (hrev : revertItems db (saleItemsOf db sid) = .ok dbr) :
    deleteSale db sid = .ok (DB.mk dbr.products dbr.movements
      (dbr.sales.filter (fun x => ¬ x.id = sid))
      (dbr.saleItems.filter (fun si => ¬ si.sale_id = sid))
      dbr.nextProductId dbr.nextMovementId dbr.nextSaleId dbr.nextSaleItemId) := by
  unfold deleteSale
  rw [hfs, hrev]

theorem keysOf_idbPut_superset {α : Type} (store : List (String × α))
    (k1 k : String) (v : α) (hk : k ∈ keysOf store) :
    k ∈ keysOf (idbPut store k1 v) := by
  unfold idbPut
  split
  · unfold keysOf at hk ⊢
    rw [List.map_map]
    have hfun :
        (Prod.fst ∘ fun kv : String × α => if kv.1 = k1 then (k1, v) else kv) =
          Prod.fst := by
      funext kv
      by_cases hkv : kv.1 = k1 <;> simp [hkv]
    rw [hfun]; exact hk
  · unfold keysOf at hk ⊢
    rw [List.map_append]
    exact List.mem_append_left _ hk

theorem queueClearItem_head (a : QueuedAction) (l : List QueuedAction)
    (n : Nat) (h : ∀ x ∈ l, a.qid < x.qid) :
    queueClearItem ⟨a :: l, n⟩ a.qid = ⟨l, n⟩ := by
  unfold queueClearItem
  simp only [ClientQueue.mk.injEq, and_true]
  rw [List.filter_cons]
  have hhead : (decide ¬ a.qid = a.qid) = false := by simp
  rw [hhead]
  exact List.filter_eq_self.mpr (fun x hx => by
    have := h x hx
    simp
    omega)

theorem flushLoop_all_success (net : QueuedAction → NetOutcome) :
    ∀ (l : List QueuedAction) (n : Nat),
    l.Pairwise (fun x y => x.qid < y.qid) →
    (∀ x ∈ l, apiOk (net x) = true) →
    flushLoop net ⟨l, n⟩ l = (l, ⟨[], n⟩) := by
  intro l
  induction l with
  | nil => intro n _ _; rfl
  | cons a rest ih =>
    intro n hp hall
    have hhead : ∀ x ∈ rest, a.qid < x.qid :=
      fun x hx => (List.pairwise_cons.mp hp).1 x hx
    have hrest : rest.Pairwise (fun x y => x.qid < y.qid) :=
      (List.pairwise_cons.mp hp).2
    have hok : apiOk (net a) = true := hall a (List.mem_cons_self a rest)
    cases happi : api (net a) with
    | error e => rw [apiOk, happi] at hok; exact absurd hok (by simp)
    | ok u =>
      simp only [flushLoop, happi]
      rw [queueClearItem_head a rest n hhead]
      rw [ih n hrest (fun x hx => hall x (List.mem_cons_of_mem a hx))]

theorem flushLoop_stops (net : QueuedAction → NetOutcome) :
    ∀ (pre : List QueuedAction) (a : QueuedAction) (post : List QueuedAction)
      (n : Nat),
    (pre ++ a :: post).Pairwise (fun x y => x.qid < y.qid) →
    (∀ x ∈ pre, apiOk (net x) = true) →
    apiOk (net a) = false →
    flushLoop net ⟨pre ++ a :: post, n⟩ (pre ++ a :: post) =
      (pre ++ [a], ⟨a :: post, n⟩) := by
  intro pre
  induction pre with
  | nil =>
    intro a post n _ _ hfail
    cases happi : api (net a) with
    | ok u => rw [apiOk, happi] at hfail; exact absurd hfail (by simp)
    | error e => simp only [List.nil_append, flushLoop, happi]
  | cons b pre1 ih =>
    intro a post n hp hpre hfail
    have hp1 : (b :: (pre1 ++ a :: post)).Pairwise (fun x y => x.qid < y.qid) := hp
    have hhead : ∀ x ∈ pre1 ++ a :: post, b.qid < x.qid :=
      fun x hx => (List.pairwise_cons.mp hp1).1 x hx
    have hrest : (pre1 ++ a :: post).Pairwise (fun x y => x.qid < y.qid) :=
      (List.pairwise_cons.mp hp1).2
    have hok : apiOk (net b) = true := hpre b (List.mem_cons_self b pre1)
    cases happi : api (net b) with
    | error e => rw [apiOk, happi] at hok; exact absurd hok (by simp)
    | ok u =>
      simp only [List.cons_append, flushLoop, happi]
      rw [queueClearItem_head b (pre1 ++ a :: post) n hhead]
      have ihh := ih a post n hrest
        (fun x hx => hpre x (List.mem_cons_of_mem b hx)) hfail
      simp only [List.append_eq]
      rw [ihh]

/-! ## Claim theorems -/

/-- Claim C1 (code_bug evaluation): the spec requires that no operation
sequence can drive a product qty below 0 and names items lists repeating
a product.  On a product with qty 50, POST /sales with items
[(1, 30), (1, 30)] is accepted (the validate-and-lock loop checks each
occurrence against the stored, not-yet-decremented quantity) and the
committed state has qty -10. -/
theorem C1_duplicate_sale_items_drive_qty_negative :
    (match createSale c1Db 5000 "Lunch combo" [(1, 30), (1, 30)] with
      | .ok d => (findProduct d 1).map Product.qty
      | .error _ => none) = some (-10) ∧
    (findProduct (run DB.empty c1Ops) 1).map Product.qty = some (-10) := by
  decide

/-- Claim C5 counterexample: with the device online and the server
rejecting the request with status 400 (insufficient stock), apiOrQueue
still appends the action to the queue, contradicting the claim that a
server rejection is never enqueued. -/
theorem C5_server_rejection_enqueued_cex :
    (apiOrQueue true (.reply 400 "Insufficient stock") c5Q
        "sale_create" ["api", "finance", "sales"] "POST" "amount=5000").1.ok = false ∧
    (apiOrQueue true (.reply 400 "Insufficient stock") c5Q
        "sale_create" ["api", "finance", "sales"] "POST" "amount=5000").2.items =
      [⟨1, "sale_create", ["api", "finance", "sales"], "POST", "amount=5000"⟩] := by
  decide

/-- Claim C5 amended: apiOrQueue enqueues on EVERY failure - device
offline, fetch rejection, or server non-2xx response alike - and leaves
the queue unchanged exactly when the call succeeds while online; the
write handlers surface the error and trigger a full reload exactly when
the device is online and the call failed (including server
rejections). -/
theorem C5_every_failure_enqueues (online : Bool) (outcome : NetOutcome)
    (q : ClientQueue) (kind : String) (path : List String)
    (method : String) (body : String) :
    (apiOrQueue online outcome q kind path method body).2 =
      (if online && apiOk outcome then q
       else queueAdd q kind path method body) ∧
    (apiOrQueue online outcome q kind path method body).1.ok =
      (online && apiOk outcome) ∧
    surfaceAndReload online (apiOrQueue online outcome q kind path method body).1.ok =
      (online && !(apiOk outcome)) := by
  cases online with
  | false => simp [apiOrQueue, apiOk, surfaceAndReload]
  | true =>
    cases h : api outcome <;>
      simp [apiOrQueue, apiOk, surfaceAndReload, h]

/-- Claim C7 counterexample: POST /products with a valid name and
initial_qty = 0 (which satisfies initial_qty >= 0) creates the product
but records no stock movement at all, contradicting the claim that a
single synthetic IN movement of that quantity is recorded for every
initial_qty >= 0. -/
theorem C7_initial_qty_zero_records_no_movement_cex :
    createProduct DB.empty "Ice" "" "pcs" 0 0 =
      .ok (DB.mk [Product.mk 1 "Ice" "" "pcs" 0 0] [] [] [] 2 1 1 1) ∧
    (match createProduct DB.empty "Ice" "" "pcs" 0 0 with
      | .ok d => d.movements.length
      | .error _ => 1) = 0 := by
  constructor
  · rfl
  · decide

/-- Claim C7 amended: POST /products with a valid name rejects
initial_qty < 0; with initial_qty = 0 it creates the product with qty 0
and records no movement; with initial_qty > 0 it creates the product
with qty = initial_qty and records exactly one synthetic IN movement of
that quantity in the same atomic unit of work. -/
theorem C7_create_product_goes_through_ledger (db : DB)
    (name sku unit : String) (rl iq : Int) (hname : name ≠ "") :
    (iq < 0 →
      createProduct db name sku unit rl iq =
        .error "initial_qty must be 0 or more") ∧
    (iq = 0 →
      createProduct db name sku unit rl iq = .ok { db with
        products := db.products ++
          [⟨db.nextProductId, name, sku, (if unit = "" then "pcs" else unit), 0, rl⟩]
        nextProductId := db.nextProductId + 1 }) ∧
    (0 < iq →
      createProduct db name sku unit rl iq = .ok { db with
        products := db.products ++
          [⟨db.nextProductId, name, sku, (if unit = "" then "pcs" else unit), iq, rl⟩]
        movements := db.movements ++
          [⟨db.nextMovementId, db.nextProductId, .IN, iq,
            "Initial Stock IN on product creation"⟩]
        nextProductId := db.nextProductId + 1
        nextMovementId := db.nextMovementId + 1 }) := by
  refine ⟨fun h => ?_, fun h => ?_, fun h => ?_⟩
  · simp [createProduct, hname, h]
  · simp [createProduct, hname, h]
  · have hlt : ¬ iq < 0 := by omega
    simp [createProduct, hname, h, hlt]

/-- Claim C7 witness: creating "Ice" with initial_qty 5 in the empty
database yields the product with qty 5 and one IN movement of 5. -/
theorem C7_create_product_goes_through_ledger_witness :
    createProduct DB.empty "Ice" "" "pcs" 0 5 =
      .ok (DB.mk [Product.mk 1 "Ice" "" "pcs" 5 0]
        [StockMovement.mk 1 1 .IN 5 "Initial Stock IN on product creation"]
        [] [] 2 2 1 1) :=
  (C7_create_product_goes_through_ledger DB.empty "Ice" "" "pcs" 0 5
    (by decide)).2.2 (by decide)

/-- Claim C9: under the PostgreSQL schema sale_items.product_id has no
ON DELETE action, so the plain DELETE issued by DELETE /products/:id
fails with a foreign-key violation for every product referenced by at
least one sale_items row, and the statement leaves the tables
unchanged. -/
theorem C9_product_in_sale_items_undeletable (db : DB) (pid : Nat)
    (si : SaleItem) (hp : (findProduct db pid).isSome = true)
    (hsi : si ∈ db.saleItems) (hpid : si.product_id = pid) :
    deleteProduct db pid = .error "sale_items.product_id foreign key violation" := by
  unfold deleteProduct
  obtain ⟨p, hfind⟩ := Option.isSome_iff_exists.mp hp
  rw [hfind]
  have hany : db.saleItems.any (fun x => x.product_id == pid) = true :=
    List.any_eq_true.mpr ⟨si, hsi, by simp [hpid]⟩
  simp [hany]

/-- Claim C9 witness: the product of c9Db is referenced by a sale item,
so deleting it fails. -/
theorem C9_product_in_sale_items_undeletable_witness :
    deleteProduct c9Db 1 = .error "sale_items.product_id foreign key violation" :=
  C9_product_in_sale_items_undeletable c9Db 1 ⟨1, 1, 1, 2⟩
    (by decide) (by decide) rfl

/-- Claim C10: the post-sync refresh only upserts into the durable
caches (loadAll writes server records via idbPutMany without clearing),
so every key present before a refresh is still present after it; in
particular temporary tmp- ids and records deleted on the server persist
in the cache. -/
theorem C10_cache_keys_never_shrink {α : Type} (store vs : List (String × α))
    (k : String) (hk : k ∈ keysOf store) :
    k ∈ keysOf (refreshCache store vs) := by
  unfold refreshCache idbPutMany
  induction vs generalizing store with
  | nil => exact hk
  | cons kv rest ih =>
    simp only [List.foldl_cons]
    exact ih _ (keysOf_idbPut_superset store kv.1 k kv.2 hk)

/-- Claim C10 witness: a record stored under a temporary id survives a
refresh that upserts the authoritative server record. -/
theorem C10_cache_keys_never_shrink_witness :
    "tmp-1730000000000" ∈ keysOf (refreshCache c10Store c10Recs) :=
  C10_cache_keys_never_shrink c10Store c10Recs "tmp-1730000000000" (by decide)

/-- Claim C6: while online, flushQueue replays the queued actions
sequentially in insertion order, removing each entry right after its
replay succeeds; if every replay succeeds the queue ends empty, and if
the replay of action a fails after prefix pre succeeded, the attempted
replays are exactly pre ++ [a] in order and a together with everything
after it stays queued while pre has been removed. -/
theorem C6_flush_is_fifo_and_stops_on_failure (net : QueuedAction → NetOutcome)
    (q : ClientQueue) (pre post : List QueuedAction) (a : QueuedAction)
    (hwf : q.items.Pairwise (fun x y => x.qid < y.qid)) :
    ((∀ x ∈ q.items, apiOk (net x) = true) →
      flushQueue true net q = (q.items, ⟨[], q.nextQid⟩)) ∧
    (q.items = pre ++ a :: post →
      (∀ x ∈ pre, apiOk (net x) = true) →
      apiOk (net a) = false →
      flushQueue true net q = (pre ++ [a], ⟨a :: post, q.nextQid⟩)) := by
  obtain ⟨items, n⟩ := q
  simp only at hwf ⊢
  constructor
  · intro hall
    show flushQueue true net ⟨items, n⟩ = (items, ⟨[], n⟩)
    unfold flushQueue
    simp only [not_true, if_false]
    exact flushLoop_all_success net items n hwf hall
  · intro heq hpre hfail
    show flushQueue true net ⟨items, n⟩ = (pre ++ [a], ⟨a :: post, n⟩)
    subst heq
    unfold flushQueue
    simp only [not_true, if_false]
    exact flushLoop_stops net pre a post n hwf hpre hfail

/-- Claim C6 witness: with three queued actions and the second replay
failing, the drain attempts exactly the first two in order, removes the
first, and leaves the second and third queued. -/
theorem C6_flush_is_fifo_and_stops_on_failure_witness :
    flushQueue true c6Net c6Q = ([c6A1, c6A2], ⟨[c6A2, c6A3], 4⟩) := by
  have h := C6_flush_is_fifo_and_stops_on_failure c6Net c6Q [c6A1] [c6A3] c6A2
    (by decide)
  exact h.2 (by decide) (by decide) (by decide)

/-- Claim C8: no mounted route handles POST /api/inventory/products/:id/loss,
the path recordLoss targets; so the online call observes the default 404
response and apiOrQueue enqueues the action, and every later drain whose
network outcomes are produced by the route table fails on that entry
again, leaving it (and everything queued after it) in place. -/
theorem C8_loss_route_unreachable_and_blocks_queue (pid : Nat)
    (handled : NetOutcome) (q q2 : ClientQueue) (body : String)
    (net : QueuedAction → NetOutcome) (hf : QueuedAction → NetOutcome)
    (rest : List QueuedAction)
    (hnet : ∀ x, net x = dispatch x.method x.path (hf x))
    (hq2 : q2.items = ⟨q.nextQid, "stock_loss", lossPath pid, "POST", body⟩ :: rest) :
    serverHandles "POST" (lossPath pid) = false ∧
    (apiOrQueue true (dispatch "POST" (lossPath pid) handled) q
        "stock_loss" (lossPath pid) "POST" body).2 =
      queueAdd q "stock_loss" (lossPath pid) "POST" body ∧
    flushQueue true net q2 =
      ([⟨q.nextQid, "stock_loss", lossPath pid, "POST", body⟩], q2) := by
  have h1 : serverHandles "POST" (lossPath pid) = false := rfl
  refine ⟨h1, ?_, ?_⟩
  · simp [apiOrQueue, dispatch, h1, api]
  · unfold flushQueue
    simp only [not_true, if_false]
    rw [hq2]
    have hout : api (net ⟨q.nextQid, "stock_loss", lossPath pid, "POST", body⟩) =
        .error "Cannot match route" := by
      rw [hnet ⟨q.nextQid, "stock_loss", lossPath pid, "POST", body⟩]
      simp [dispatch, h1, api]
    simp only [flushLoop, hout]

/-- Claim C2: for every well-formed database satisfying the conservation
invariant, after every sequence of completed server operations (product
creation, stock move, sale creation, sale deletion) every product's qty
still equals the sum of its IN movements minus the sum of its OUT
movements; rejected requests leave the state unchanged. -/
theorem C2_conservation_invariant (db : DB) (ops : List Op)
    (hwf : WF db) (hc : conservation db) : conservation (run db ops) :=
  (run_preserves ops db hwf hc).2

/-- Claim C2 witness: the scenario of spec section 8 - create a product,
stock 50 in, move 30 out, sell 10 through a sale, delete the sale - run
from the empty database keeps the conservation invariant. -/
theorem C2_conservation_invariant_witness : conservation (run DB.empty c2Ops) :=
  C2_conservation_invariant DB.empty c2Ops (by decide) (by decide)

/-- Claim C3: createSale is all-or-nothing: for every request it either
fails with an error and the observable state is unchanged, or it commits
one Sale row, exactly N SaleItem rows and N OUT movements for its N
items, and decrements each referenced product by the total quantity its
items consume. -/
theorem C3_sale_all_or_nothing (db : DB) (amount : Int) (description : String)
    (items : List (Nat × Int)) :
    (∃ e, createSale db amount description items = .error e ∧
      step db (.createSale amount description items) = db) ∨
    (∃ db2, createSale db amount description items = .ok db2 ∧
      db2.sales = db.sales ++ [⟨db.nextSaleId, amount, description⟩] ∧
      db2.saleItems = db.saleItems ++
        mkSaleItems db.nextSaleId db.nextSaleItemId items ∧
      (mkSaleItems db.nextSaleId db.nextSaleItemId items).length = items.length ∧
      db2.movements = db.movements ++
        outMovements db.nextSaleId db.nextMovementId items ∧
      (outMovements db.nextSaleId db.nextMovementId items).length = items.length ∧
      (∀ m ∈ outMovements db.nextSaleId db.nextMovementId items,
        m.type = MovType.OUT) ∧
      db2.products = db.products.map
        (fun p => { p with qty := p.qty - itemsSum p.id items })) := by
  cases hcs : createSale db amount description items with
  | error e =>
    left
    refine ⟨e, rfl, ?_⟩
    show (match createSale db amount description items with
      | .ok db1 => db1
      | .error _ => db) = db
    rw [hcs]
  | ok db2 =>
    right
    obtain ⟨_, _, _, _, hdb2⟩ :=
      createSale_ok_shape db amount description items db2 hcs
    subst hdb2
    refine ⟨_, rfl, ?_, ?_, ?_, ?_, ?_, ?_, ?_⟩
    · rfl
    · rfl
    · exact mkSaleItems_length _ items _
    · rfl
    · exact outMovements_length _ items _
    · exact fun m hm => (outMovements_mem _ items _ m hm).1
    · rfl

/-- Claim C4: creating a sale and then deleting it restores every
product's qty (indeed the whole products table) to its pre-sale value,
removes the Sale and its SaleItems, and records for every OUT movement
written at creation exactly one compensating IN movement with the same
product and quantity. -/
theorem C4_sale_reversal_roundtrip (db : DB) (amount : Int)
    (description : String) (items : List (Nat × Int)) (db1 : DB)
    (hwf : WF db)
    (h : createSale db amount description items = .ok db1) :
    ∃ db2, deleteSale db1 db.nextSaleId = .ok db2 ∧
      db2.products = db.products ∧
      db2.sales = db.sales ∧
      db2.saleItems = db.saleItems ∧
      db1.movements = db.movements ++
        outMovements db.nextSaleId db.nextMovementId items ∧
      db2.movements = db1.movements ++
        inMovementsOf db1.nextMovementId
          (mkSaleItems db.nextSaleId db.nextSaleItemId items) ∧
      (inMovementsOf db1.nextMovementId
          (mkSaleItems db.nextSaleId db.nextSaleItemId items)).map
          (fun m => (m.product_id, m.qty)) =
        (outMovements db.nextSaleId db.nextMovementId items).map
          (fun m => (m.product_id, m.qty)) ∧
      (∀ m ∈ inMovementsOf db1.nextMovementId
          (mkSaleItems db.nextSaleId db.nextSaleItemId items),
        m.type = MovType.IN) ∧
      (∀ s ∈ db2.sales, s.id ≠ db.nextSaleId) ∧
      (∀ si ∈ db2.saleItems, si.sale_id ≠ db.nextSaleId) := by
  obtain ⟨hpw, hpb, hmb, hsb, hsib⟩ := hwf
  obtain ⟨hok, hdesc, hvalid, hcheck, hdb1⟩ :=
    createSale_ok_shape db amount description items db1 h
  have hpres1 := checkStock_ok_present items db hcheck
  have hsio : saleItemsOf db1 db.nextSaleId =
      mkSaleItems db.nextSaleId db.nextSaleItemId items := by
    rw [hdb1]
    show (db.saleItems ++
        mkSaleItems db.nextSaleId db.nextSaleItemId items).filter
        (fun si => si.sale_id == db.nextSaleId) = _
    rw [List.filter_append]
    have h1 : db.saleItems.filter (fun si => si.sale_id == db.nextSaleId) = [] := by
      rw [List.filter_eq_nil_iff]
      intro si hsi
      have hlt := hsib si hsi
      intro hEq
      have h3 : si.sale_id = db.nextSaleId := by simpa using hEq
      omega
    have h2 := List.filter_eq_self.mpr
      (fun (si : SaleItem)
          (hsi : si ∈ mkSaleItems db.nextSaleId db.nextSaleItemId items) =>
        beq_iff_eq.mpr (mkSaleItems_mem _ items _ si hsi))
    rw [h1, h2, List.nil_append]
  have hfs : db1.sales.find? (fun x => x.id == db.nextSaleId) =
      some ⟨db.nextSaleId, amount, description⟩ := by
    rw [hdb1]
    show (db.sales ++ [(⟨db.nextSaleId, amount, description⟩ : Sale)]).find?
        (fun x => x.id == db.nextSaleId) = _
    rw [find?_append_of_prefix_none _ _ _
      (fun s hs => by
        have := hsb s hs
        simp only [beq_eq_false_iff_ne, ne_eq]
        omega)]
    rw [List.find?_cons_of_pos _ (by simp)]
  have hpresent : ∀ si ∈ saleItemsOf db1 db.nextSaleId,
      (findProduct db1 si.product_id).isSome = true := by
    rw [hsio]
    intro si hsi
    obtain ⟨it, hit, hpid⟩ := mkSaleItems_mem_pid _ items _ si hsi
    have hres : ((db.products.map
        (fun p => { p with qty := p.qty - itemsSum p.id items })).find?
        (fun x => x.id == si.product_id)).isSome = true := by
      rw [find?_pid_map_isSome
        (fun p => { p with qty := p.qty - itemsSum p.id items })
        (fun p => rfl), hpid]
      exact hpres1 it hit
    rw [hdb1]
    exact hres
  obtain ⟨dbr, hrev⟩ :=
    revertItems_isOk (saleItemsOf db1 db.nextSaleId) db1 hpresent
  obtain ⟨hdbr, _⟩ := revertItems_ok_components _ db1 dbr hrev
  rw [hsio] at hdbr
  have hds := deleteSale_ok_of db1 db.nextSaleId
    ⟨db.nextSaleId, amount, description⟩ hfs dbr hrev
  refine ⟨_, hds, ?_, ?_, ?_, ?_, ?_, ?_, ?_, ?_, ?_⟩
  · -- products restored
    rw [hdbr, hdb1]
    show ((db.products.map
        (fun p => { p with qty := p.qty - itemsSum p.id items })).map
        (fun p =>
          { p with
            qty := p.qty + sumUsed p.id (mkSaleItems db.nextSaleId db.nextSaleItemId items) })) =
      db.products
    rw [List.map_map]
    exact List.map_id'' (fun p => by
      simp [Function.comp, sumUsed_mkSaleItems, Int.sub_add_cancel]) db.products
  · -- sales restored
    rw [hdbr, hdb1]
    show (db.sales ++ [(⟨db.nextSaleId, amount, description⟩ : Sale)]).filter
        (fun x => ¬ x.id = db.nextSaleId) = db.sales
    rw [List.filter_append]
    have h1 := List.filter_eq_self.mpr
      (fun (s : Sale) (hs : s ∈ db.sales) =>
        decide_eq_true (show ¬ s.id = db.nextSaleId by
          have := hsb s hs
          omega))
    have h2 : ([(⟨db.nextSaleId, amount, description⟩ : Sale)]).filter
        (fun x => ¬ x.id = db.nextSaleId) = [] := by simp
    rw [h1, h2, List.append_nil]
  · -- sale items restored
    rw [hdbr, hdb1]
    show (db.saleItems ++
        mkSaleItems db.nextSaleId db.nextSaleItemId items).filter
        (fun si => ¬ si.sale_id = db.nextSaleId) = db.saleItems
    rw [List.filter_append]
    have h1 := List.filter_eq_self.mpr
      (fun (si : SaleItem) (hsi : si ∈ db.saleItems) =>
        decide_eq_true (show ¬ si.sale_id = db.nextSaleId by
          have := hsib si hsi
          omega))
    have h2 : (mkSaleItems db.nextSaleId db.nextSaleItemId items).filter
        (fun si => ¬ si.sale_id = db.nextSaleId) = [] := by
      rw [List.filter_eq_nil_iff]
      intro si hsi
      have := mkSaleItems_mem _ items _ si hsi
      simp [this]
    rw [h1, h2, List.append_nil]
  · -- movements written at creation
    rw [hdb1]
  · -- compensating movements appended at deletion
    rw [hdbr]
  · -- positional matching of IN and OUT movements
    rw [inMovementsOf_mk_pairs, outMovements_pairs]
  · exact fun m hm => (inMovementsOf_mem _ _ m hm).1
  · -- the sale is gone
    intro s hs
    have hs2 := (List.mem_filter.mp
      (show s ∈ dbr.sales.filter (fun x => ¬ x.id = db.nextSaleId) from hs)).2
    intro hEq
    simp [hEq] at hs2
  · -- its sale items are gone
    intro si hsi
    have hsi2 := (List.mem_filter.mp
      (show si ∈ dbr.saleItems.filter (fun x => ¬ x.sale_id = db.nextSaleId) from hsi)).2
    intro hEq
    simp [hEq] at hsi2

/-- Claim C4 witness: on the concrete database with product 1 at qty 20,
creating the sale for 10 units and deleting it restores the products
table. -/
theorem C4_sale_reversal_roundtrip_witness :
    ∃ db2, deleteSale c4Db1 1 = .ok db2 ∧ db2.products = c4Db.products := by
  obtain ⟨db2, hds, hprod, _⟩ :=
    C4_sale_reversal_roundtrip c4Db 5000 "Lunch combo" [(1, 10)] c4Db1
      (by decide) rfl
  exact ⟨db2, hds, hprod⟩

/-- Claim C8 witness: the concrete loss action for product 3, queued in
front of a well-routed expense action, blocks the drain: the drain
attempts only the loss action and the queue is left unchanged. -/
theorem C8_loss_route_unreachable_and_blocks_queue_witness :
    serverHandles "POST" (lossPath 3) = false ∧
    (apiOrQueue true (dispatch "POST" (lossPath 3) (.reply 200 "")) c8Q
        "stock_loss" (lossPath 3) "POST" "qty=2").2 =
      queueAdd c8Q "stock_loss" (lossPath 3) "POST" "qty=2" ∧
    flushQueue true c8Net c8Q2 = ([c8Loss], c8Q2) :=
  C8_loss_route_unreachable_and_blocks_queue 3 (.reply 200 "") c8Q c8Q2 "qty=2"
    c8Net c8Hf [c8Other] (fun _ => rfl) rfl

end SeaBite
